import Mathlib

/-!
Shallow embedding of the inventory and purchasing application:
the `Producto`/`Inventario` catalog of `inventario_poo_sqlite.py`
and the purchase / shopping-cart flows of `app.py`.
Machine integers are modelled as `Int`/`Nat`; prices as `ℚ`;
database writes that may raise are modelled by an explicit failure flag,
and a raised write that is rolled back leaves the state component unchanged.
-/

set_option linter.unusedVariables false

/-- Validation failures raised by the `Producto` property setters
(`ValueError` in the source). -/
inductive ValidationError where
  | idInvalido
  | nombreVacio
  | cantidadNegativa
  | precioNegativo
  deriving DecidableEq, Repr

/-- Product entity of `inventario_poo_sqlite.py` (`id`, `nombre`, `cantidad`,
`precio`, `categoria`). Field values are the ones held in the backing
attributes after successful validation. -/
structure Producto where
  id : Int
  nombre : String
  cantidad : Int
  precio : ℚ
  categoria : String
  deriving DecidableEq, Repr

/-- Leading-whitespace removal on a character list. -/
def recortaIzq : List Char → List Char
  | [] => []
  | c :: cs => if c.isWhitespace then recortaIzq cs else c :: cs

/-- Python `str.strip`: drop leading and trailing whitespace. -/
def recorta (s : String) : String :=
  ⟨(recortaIzq (recortaIzq s.toList).reverse).reverse⟩

/-- Setter for `Producto.id`: rejects a non-positive id, raising before the
backing field is assigned, so the returned product is unchanged on failure. -/
def ponerId (p : Producto) (v : Int) : Option ValidationError × Producto :=
  if v ≤ 0 then (some .idInvalido, p) else (none, { p with id := v })

/-- Setter for `Producto.nombre`: rejects an empty or whitespace-only name,
otherwise stores the trimmed input. -/
def ponerNombre (p : Producto) (v : String) : Option ValidationError × Producto :=
  if recorta v = "" then (some .nombreVacio, p) else (none, { p with nombre := recorta v })

/-- Setter for `Producto.cantidad`: rejects a negative quantity. -/
def ponerCantidad (p : Producto) (v : Int) : Option ValidationError × Producto :=
  if v < 0 then (some .cantidadNegativa, p) else (none, { p with cantidad := v })

/-- Setter for `Producto.precio`: rejects a negative price. -/
def ponerPrecio (p : Producto) (v : ℚ) : Option ValidationError × Producto :=
  if v < 0 then (some .precioNegativo, p) else (none, { p with precio := v })

/-- Construction of a `Producto`: the dataclass constructor assigns
`id`, `nombre`, `cantidad`, `precio` through the validating setters in field
order, so the first violated check raises. -/
def mkProducto (i : Int) (n : String) (c : Int) (pr : ℚ) (cat : String) :
    Except ValidationError Producto :=
  if i ≤ 0 then .error .idInvalido
  else if recorta n = "" then .error .nombreVacio
  else if c < 0 then .error .cantidadNegativa
  else if pr < 0 then .error .precioNegativo
  else .ok { id := i, nombre := recorta n, cantidad := c, precio := pr, categoria := cat }

/-- Errors raised by `Inventario` operations (`ValueError`/`KeyError` and a
persistence-layer failure surfaced by sqlite). -/
inductive InvError where
  | duplicado
  | noExiste
  | falloPersistencia
  deriving DecidableEq, Repr

/-- State of the `Inventario` service: `productos` is the in-memory dict
(insertion-ordered association by id) and `bd` the rows of the durable
sqlite table `productos`. -/
structure Inventario where
  productos : List Producto
  bd : List Producto
  deriving DecidableEq, Repr

/-- `Inventario.agregar_producto`: rejects a duplicate id, otherwise stores
into the in-memory dict and then issues the durable INSERT; `falloBd` models
the INSERT raising, which the source does not catch or roll back. -/
def agregar_producto (falloBd : Bool) (inv : Inventario) (p : Producto) :
    Option InvError × Inventario :=
  if (inv.productos.map Producto.id).contains p.id then (some .duplicado, inv)
  else
    let conIndice : Inventario := { inv with productos := inv.productos ++ [p] }
    if falloBd then (some .falloPersistencia, conIndice)
    else (none, { conIndice with bd := conIndice.bd ++ [p] })

/-- `Inventario.eliminar_producto`: rejects an unknown id, otherwise deletes
from the in-memory dict and then issues the durable DELETE; `falloBd` models
the DELETE raising, which the source does not catch or roll back. -/
def eliminar_producto (falloBd : Bool) (inv : Inventario) (pid : Int) :
    Option InvError × Inventario :=
  if (inv.productos.map Producto.id).contains pid then
    let sinIndice : Inventario :=
      { inv with productos := inv.productos.filter (fun q => q.id != pid) }
    if falloBd then (some .falloPersistencia, sinIndice)
    else (none, { sinIndice with bd := sinIndice.bd.filter (fun q => q.id != pid) })
  else (some .noExiste, inv)

/-- Boolean test that `t` occurs contiguously at the head of `s`. -/
def prefijoDe : List Char → List Char → Bool
  | [], _ => true
  | _ :: _, [] => false
  | a :: as, b :: bs => a == b && prefijoDe as bs

/-- Boolean test that `t` occurs contiguously somewhere in `s`
(Python `t in s`, SQL `s LIKE concat of wildcard, t, wildcard`). -/
def subcadena (t : List Char) : List Char → Bool
  | [] => prefijoDe t []
  | b :: bs => prefijoDe t (b :: bs) || subcadena t bs

/-- String-level substring test used by the search paths. -/
def enCadena (t s : String) : Bool := subcadena t.toList s.toList

/-- In-memory half of `buscar_por_nombre`: list comprehension over the dict
values with a lowered substring test against the stripped, lowered term. -/
def coincidenciasMem (termino : String) (inv : Inventario) : List Producto :=
  inv.productos.filter (fun p => enCadena (recorta termino).toLower p.nombre.toLower)

/-- Durable half of `buscar_por_nombre`: the rows answered by the
`lower(nombre) LIKE` query for the stripped, lowered term. -/
def coincidenciasBd (termino : String) (inv : Inventario) : List Producto :=
  inv.bd.filter (fun p => enCadena (recorta termino).toLower p.nombre.toLower)

/-- The de-duplicating append loop of `buscar_por_nombre`: each row whose id
is not yet in the seen set is appended and its id recorded. -/
def agregaNuevos (vistos : List Int) : List Producto → List Producto
  | [] => []
  | r :: rs =>
    if vistos.contains r.id then agregaNuevos vistos rs
    else r :: agregaNuevos (r.id :: vistos) rs

/-- `Inventario.buscar_por_nombre`: in-memory matches first, then the durable
query results whose ids were not already seen. -/
def buscar_por_nombre (termino : String) (inv : Inventario) : List Producto :=
  let mem := coincidenciasMem termino inv
  mem ++ agregaNuevos (mem.map Producto.id) (coincidenciasBd termino inv)

/-- Ordering of products by ascending id, the sort key of `listar_todos`. -/
def porId (p q : Producto) : Prop := p.id ≤ q.id

instance : DecidableRel porId := fun p q => inferInstanceAs (Decidable (p.id ≤ q.id))

instance : IsTotal Producto porId := ⟨fun a b => Int.le_total a.id b.id⟩

instance : IsTrans Producto porId := ⟨fun _ _ _ => Int.le_trans⟩

/-- `Inventario.listar_todos`: the dict values sorted by id. -/
def listar_todos (inv : Inventario) : List Producto :=
  List.insertionSort porId inv.productos

/-- `Inventario.stock_total`: sum of `cantidad` over the dict values. -/
def stock_total (inv : Inventario) : Int :=
  (inv.productos.map Producto.cantidad).sum

/-- `Inventario.productos_sin_stock`: dict values with zero quantity. -/
def productos_sin_stock (inv : Inventario) : List Producto :=
  inv.productos.filter (fun p => p.cantidad == 0)

/-- Row of the MySQL `productos` table used by `app.py`
(`id`, `nombre`, `cantidad`, `precio`). -/
structure FilaProducto where
  id : Nat
  nombre : String
  cantidad : Int
  precio : ℚ
  deriving DecidableEq, Repr

/-- Row of the append-only `compras` table
(`usuario_id`, `producto_id`, `cantidad`). -/
structure Compra where
  usuario_id : Nat
  producto_id : Nat
  cantidad : Int
  deriving DecidableEq, Repr

/-- Database state seen by the purchase flows of `app.py`. -/
structure Tienda where
  productos : List FilaProducto
  compras : List Compra
  deriving DecidableEq, Repr

/-- Authenticated user (`models/user.py`): only id and role matter here. -/
structure Usuario where
  id : Nat
  rol : String
  deriving DecidableEq, Repr

/-- `Usuario.es_admin` from `models/user.py`. -/
def Usuario.es_admin (u : Usuario) : Bool := u.rol == "admin"

/-- Outcomes reported by the purchase and cart flows (the flash messages of
`app.py`, mapped to the error taxonomy of the design). -/
inductive CompraError where
  | prohibido
  | cantidadInvalida
  | noEncontrado
  | sinStock (disponible : Int) (nombre : String)
  | carritoVacio
  | productoInexistente (nombre : String)
  | falloAplicacion
  deriving DecidableEq, Repr

/-- `SELECT ... FROM productos WHERE id = pid` (id is the primary key). -/
def buscaProducto (st : Tienda) (pid : Nat) : Option FilaProducto :=
  st.productos.find? (fun p => p.id == pid)

/-- `UPDATE productos SET cantidad = cantidad - c WHERE id = pid`. -/
def descuentaStock (pid : Nat) (c : Int) (filas : List FilaProducto) : List FilaProducto :=
  filas.map (fun p => if p.id == pid then { p with cantidad := p.cantidad - c } else p)

/-- `comprar_producto` of `app.py`: admin gate, quantity validation, product
fetch, live-stock comparison, then INSERT of the purchase row and UPDATE of
stock committed as one transaction; `falloAplica` models either statement
raising, in which case the transaction is rolled back and the surfaced state
is the original one. -/
def comprar_producto (user : Usuario) (pid : Nat) (cantidad : Int) (falloAplica : Bool)
    (st : Tienda) : Option CompraError × Tienda :=
  if user.es_admin then (some .prohibido, st)
  else if cantidad < 1 then (some .cantidadInvalida, st)
  else
    match buscaProducto st pid with
    | none => (some .noEncontrado, st)
    | some producto =>
      if producto.cantidad < cantidad then (some (.sinStock producto.cantidad producto.nombre), st)
      else if falloAplica then (some .falloAplicacion, st)
      else (none, { productos := descuentaStock pid cantidad st.productos,
                    compras := st.compras ++ [⟨user.id, pid, cantidad⟩] })

/-- Session cart line (`carrito[str(pid)]`): denormalized snapshot of the
product plus the accumulated requested quantity. -/
structure ItemCarrito where
  id : Nat
  nombre : String
  precio : ℚ
  cantidad : Int
  deriving DecidableEq, Repr

/-- Session cart: the insertion-ordered dict from product id to line. -/
abbrev Carrito := List (Nat × ItemCarrito)

/-- `carrito[str(pid)]['cantidad'] += cantidad`: bump the existing line. -/
def sumaLinea (carrito : Carrito) (pid : Nat) (c : Int) : Carrito :=
  carrito.map (fun l => if l.1 == pid then (l.1, { l.2 with cantidad := l.2.cantidad + c }) else l)

/-- `agregar_al_carrito` of `app.py`: quantity validation, product fetch,
live-stock comparison against the newly requested quantity only, then either
bump the existing cart line or append a fresh snapshot line. -/
def agregar_al_carrito (cantidad : Int) (pid : Nat) (st : Tienda) (carrito : Carrito) :
    Option CompraError × Carrito :=
  if cantidad < 1 then (some .cantidadInvalida, carrito)
  else
    match buscaProducto st pid with
    | none => (some .noEncontrado, carrito)
    | some producto =>
      if producto.cantidad < cantidad then (some (.sinStock producto.cantidad producto.nombre), carrito)
      else if (carrito.map Prod.fst).contains pid then (none, sumaLinea carrito pid cantidad)
      else (none, carrito ++ [(pid, ⟨producto.id, producto.nombre, producto.precio, cantidad⟩)])

/-- Validation loop of `comprar_carrito`: walk the cart in order, fetch live
stock for each line, and report the first line whose product is missing or
whose live stock is below the requested quantity. -/
def validaCarrito (st : Tienda) : Carrito → Option CompraError
  | [] => none
  | (pid, item) :: resto =>
    match buscaProducto st pid with
    | none => some (.productoInexistente item.nombre)
    | some fila =>
      if fila.cantidad < item.cantidad then some (.sinStock fila.cantidad item.nombre)
      else validaCarrito st resto

/-- Apply loop of `comprar_carrito`: for each cart line, INSERT a purchase row
and UPDATE the stock. -/
def aplicaCarrito (uid : Nat) : Carrito → Tienda → Tienda
  | [], st => st
  | (pid, item) :: resto, st =>
    aplicaCarrito uid resto
      { productos := descuentaStock pid item.cantidad st.productos,
        compras := st.compras ++ [⟨uid, pid, item.cantidad⟩] }

/-- `comprar_carrito` of `app.py`: admin gate, empty-cart gate, validation
phase over all lines (SELECT only, aborts with the state untouched), then the
apply phase committed as one transaction; `falloAplica` models a statement of
the apply phase raising, in which case the transaction is rolled back and the
session cart is not cleared. On full success the cart is emptied. -/
def comprar_carrito (user : Usuario) (carrito : Carrito) (falloAplica : Bool)
    (st : Tienda) : Option CompraError × Tienda × Carrito :=
  if user.es_admin then (some .prohibido, st, carrito)
  else if carrito.isEmpty then (some .carritoVacio, st, carrito)
  else
    match validaCarrito st carrito with
    | some e => (some e, st, carrito)
    | none =>
      if falloAplica then (some .falloAplicacion, st, carrito)
      else (none, aplicaCarrito user.id carrito st, [])

/-- Spec-side reading of the validation-phase condition: a cart line fails
when its product is missing from the live store or has less live stock than
the line requests. -/
def itemFallaSpec (st : Tienda) (linea : Nat × ItemCarrito) : Bool :=
  match buscaProducto st linea.1 with
  | none => true
  | some fila => fila.cantidad < linea.2.cantidad

/-- Spec-side reading of the error reported for a failing cart line:
missing product reports not-found with the line name, short stock reports
the available amount and the line name. -/
def errorDeLinea (st : Tienda) (linea : Nat × ItemCarrito) : Option CompraError :=
  match buscaProducto st linea.1 with
  | none => some (.productoInexistente linea.2.nombre)
  | some fila =>
    if fila.cantidad < linea.2.cantidad then some (.sinStock fila.cantidad linea.2.nombre)
    else none

/-- Example store with one product `pan`, stock 5, price 2. -/
def tiendaEj : Tienda := { productos := [⟨1, "pan", 5, 2⟩], compras := [] }

/-- Example store with two products: `pan` with stock 5 and `queso` with stock 1. -/
def tiendaDosEj : Tienda :=
  { productos := [⟨1, "pan", 5, 2⟩, ⟨2, "queso", 1, 4⟩], compras := [] }

/-- Example non-administrator user. -/
def clienteEj : Usuario := ⟨7, "user"⟩

/-- Example administrator user. -/
def adminEj : Usuario := ⟨8, "admin"⟩

/-- Example cart line for `pan` holding 3 units. -/
def itemPanEj : ItemCarrito := ⟨1, "pan", 2, 3⟩

/-- Example two-line cart: 2 units of `pan` (enough) then 3 of `queso` (short). -/
def carritoDosEj : Carrito := [(1, ⟨1, "pan", 2, 2⟩), (2, ⟨2, "queso", 4, 3⟩)]

/-- Empty example inventory. -/
def invVacioEj : Inventario := { productos := [], bd := [] }

/-- Example product for the inventory service. -/
def panInvEj : Producto := ⟨1, "pan", 2, 3, "General"⟩

/-- Second example product for the inventory service. -/
def quesoInvEj : Producto := ⟨2, "queso", 4, 5, "General"⟩

/-- Example consistent inventory holding one product in both layers. -/
def invUnoEj : Inventario := { productos := [panInvEj], bd := [panInvEj] }

/-- Example inventory where a product is visible in both layers and another
only in the durable table, for the search claims. -/
def invBuscaEj : Inventario :=
  { productos := [⟨1, "Pan integral", 4, 2, "General"⟩],
    bd := [⟨1, "Pan integral", 4, 2, "General"⟩, ⟨2, "pan dulce", 3, 1, "General"⟩] }

theorem find_descuenta_self (pid : Nat) (c : Int) (filas : List FilaProducto) :
    (descuentaStock pid c filas).find? (fun p => p.id == pid)
      = (filas.find? (fun p => p.id == pid)).map
          (fun f => { f with cantidad := f.cantidad - c }) := by
  unfold descuentaStock
  rw [List.find?_map]
  have hpf : ((fun p : FilaProducto => p.id == pid) ∘
      (fun p : FilaProducto =>
        if p.id == pid then { p with cantidad := p.cantidad - c } else p))
      = fun p : FilaProducto => p.id == pid := by
    funext x
    by_cases h : x.id = pid <;> simp [h]
  rw [hpf]
  cases hf : filas.find? (fun p => p.id == pid) with
  | none => rfl
  | some a =>
    have ha := List.find?_some hf
    simp only [beq_iff_eq] at ha
    simp [ha]

theorem find_descuenta_otro (pid otro : Nat) (c : Int) (filas : List FilaProducto)
    (hne : otro ≠ pid) :
    (descuentaStock pid c filas).find? (fun p => p.id == otro)
      = filas.find? (fun p => p.id == otro) := by
  unfold descuentaStock
  rw [List.find?_map]
  have hpf : ((fun p : FilaProducto => p.id == otro) ∘
      (fun p : FilaProducto =>
        if p.id == pid then { p with cantidad := p.cantidad - c } else p))
      = fun p : FilaProducto => p.id == otro := by
    funext x
    by_cases h : x.id = pid <;> simp [h]
  rw [hpf]
  cases hf : filas.find? (fun p => p.id == otro) with
  | none => rfl
  | some a =>
    have ha := List.find?_some hf
    simp only [beq_iff_eq] at ha
    have : ¬ a.id = pid := by
      rw [ha]
      exact hne
    simp [this]

theorem aplica_compras (uid : Nat) (cart : Carrito) :
    ∀ st : Tienda, (aplicaCarrito uid cart st).compras
      = st.compras ++ cart.map (fun l => ⟨uid, l.1, l.2.cantidad⟩) := by
  induction cart with
  | nil => intro st; simp [aplicaCarrito]
  | cons hd tl ih =>
    intro st
    obtain ⟨pid, item⟩ := hd
    simp [aplicaCarrito, ih, List.append_assoc]

theorem aplica_busca_ausente (uid : Nat) (cart : Carrito) :
    ∀ st : Tienda, ∀ pid : Nat, pid ∉ cart.map Prod.fst →
      buscaProducto (aplicaCarrito uid cart st) pid = buscaProducto st pid := by
  induction cart with
  | nil => intro st pid _; rfl
  | cons hd tl ih =>
    intro st pid hpid
    obtain ⟨pid0, item⟩ := hd
    simp only [List.map_cons, List.mem_cons] at hpid
    push_neg at hpid
    obtain ⟨h1, h2⟩ := hpid
    show buscaProducto (aplicaCarrito uid tl _) pid = _
    rw [ih _ pid h2]
    unfold buscaProducto
    exact find_descuenta_otro pid0 pid item.cantidad st.productos h1

theorem aplica_busca_linea (uid : Nat) (cart : Carrito) :
    ∀ st : Tienda, ∀ pid item, (pid, item) ∈ cart → (cart.map Prod.fst).Nodup →
      buscaProducto (aplicaCarrito uid cart st) pid
        = (buscaProducto st pid).map
            (fun f => { f with cantidad := f.cantidad - item.cantidad }) := by
  induction cart with
  | nil => intro st pid item h _; simp at h
  | cons hd tl ih =>
    intro st pid item hmem hnod
    obtain ⟨pid0, item0⟩ := hd
    simp only [List.map_cons, List.nodup_cons] at hnod
    obtain ⟨hnotin, hnodtl⟩ := hnod
    rcases List.mem_cons.mp hmem with heq | htl
    · obtain ⟨h1, h2⟩ := Prod.mk.injEq .. ▸ heq
      subst h1
      subst h2
      have hnotin2 : pid ∉ tl.map Prod.fst := hnotin
      show buscaProducto (aplicaCarrito uid tl _) pid = _
      rw [aplica_busca_ausente uid tl _ pid hnotin2]
      unfold buscaProducto
      exact find_descuenta_self pid item.cantidad st.productos
    · have hne : pid ≠ pid0 := by
        intro h
        subst h
        exact hnotin (List.mem_map.mpr ⟨(pid, item), htl, rfl⟩)
      show buscaProducto (aplicaCarrito uid tl _) pid = _
      rw [ih _ pid item htl hnodtl]
      congr 1
      unfold buscaProducto
      exact find_descuenta_otro pid0 pid item0.cantidad st.productos hne

theorem errorDeLinea_de_falla (st : Tienda) (l : Nat × ItemCarrito)
    (h : itemFallaSpec st l = true) : ∃ e, errorDeLinea st l = some e := by
  unfold itemFallaSpec at h
  unfold errorDeLinea
  cases hb : buscaProducto st l.1 with
  | none => exact ⟨_, rfl⟩
  | some fila =>
    rw [hb] at h
    simp only [decide_eq_true_eq] at h
    refine ⟨.sinStock fila.cantidad l.2.nombre, ?_⟩
    simp [h]

theorem valida_eq_primera (st : Tienda) (cart : Carrito) :
    validaCarrito st cart = (cart.find? (itemFallaSpec st)).bind (errorDeLinea st) := by
  induction cart with
  | nil => rfl
  | cons hd tl ih =>
    obtain ⟨pid, item⟩ := hd
    by_cases hf : itemFallaSpec st (pid, item) = true
    · rw [List.find?_cons_of_pos _ hf]
      unfold itemFallaSpec at hf
      unfold validaCarrito errorDeLinea
      cases hb : buscaProducto st pid with
      | none => simp [hb]
      | some fila =>
        rw [hb] at hf
        simp only [decide_eq_true_eq] at hf
        simp [hb, hf]
    · rw [List.find?_cons_of_neg _ hf]
      unfold itemFallaSpec at hf
      unfold validaCarrito
      cases hb : buscaProducto st pid with
      | none => rw [hb] at hf; simp at hf
      | some fila =>
        rw [hb] at hf
        simp only [decide_eq_true_eq, Bool.not_eq_true] at hf
        have hge : ¬ fila.cantidad < item.cantidad := by
          simpa using hf
        simp [hge, ih]

theorem contiene_mem (l : List Int) (a : Int) : l.contains a = true ↔ a ∈ l := by
  simp

theorem agregaNuevos_mem (rs : List Producto) :
    ∀ vistos : List Int, ∀ pid : Int,
      pid ∈ (agregaNuevos vistos rs).map Producto.id
        ↔ (pid ∈ rs.map Producto.id ∧ pid ∉ vistos) := by
  induction rs with
  | nil => intro vistos pid; simp [agregaNuevos]
  | cons r rs ih =>
    intro vistos pid
    by_cases hc : r.id ∈ vistos
    · have hcont : vistos.contains r.id = true := (contiene_mem vistos r.id).mpr hc
      rw [show agregaNuevos vistos (r :: rs) = agregaNuevos vistos rs by
        simp [agregaNuevos, hcont]
        exact fun h => absurd hc h]
      rw [ih vistos pid]
      simp only [List.map_cons, List.mem_cons]
      constructor
      · rintro ⟨hmem, hnv⟩
        exact ⟨Or.inr hmem, hnv⟩
      · rintro ⟨hmem | hmem, hnv⟩
        · exact absurd (hmem ▸ hc) hnv
        · exact ⟨hmem, hnv⟩
    · have hcont : vistos.contains r.id = false := by
        rw [Bool.eq_false_iff]
        intro h
        exact hc ((contiene_mem vistos r.id).mp h)
      rw [show agregaNuevos vistos (r :: rs)
            = r :: agregaNuevos (r.id :: vistos) rs by
        simp [agregaNuevos, hcont]
        exact fun h => absurd h hc]
      simp only [List.map_cons, List.mem_cons]
      rw [ih (r.id :: vistos) pid]
      simp only [List.mem_cons]
      constructor
      · rintro (heq | ⟨hmem, hnv⟩)
        · exact ⟨Or.inl heq, heq ▸ hc⟩
        · push_neg at hnv
          exact ⟨Or.inr hmem, hnv.2⟩
      · rintro ⟨heq | hmem, hnv⟩
        · exact Or.inl heq
        · by_cases hr : pid = r.id
          · exact Or.inl hr
          · refine Or.inr ⟨hmem, ?_⟩
            push_neg
            exact ⟨hr, hnv⟩

theorem agregaNuevos_nodup (rs : List Producto) :
    ∀ vistos : List Int, ((agregaNuevos vistos rs).map Producto.id).Nodup := by
  induction rs with
  | nil => intro vistos; simp [agregaNuevos]
  | cons r rs ih =>
    intro vistos
    by_cases hc : r.id ∈ vistos
    · have hcont : vistos.contains r.id = true := (contiene_mem vistos r.id).mpr hc
      rw [show agregaNuevos vistos (r :: rs) = agregaNuevos vistos rs by
        simp [agregaNuevos, hcont]
        exact fun h => absurd hc h]
      exact ih vistos
    · have hcont : vistos.contains r.id = false := by
        rw [Bool.eq_false_iff]
        intro h
        exact hc ((contiene_mem vistos r.id).mp h)
      rw [show agregaNuevos vistos (r :: rs)
            = r :: agregaNuevos (r.id :: vistos) rs by
        simp [agregaNuevos, hcont]
        exact fun h => absurd h hc]
      rw [List.map_cons, List.nodup_cons]
      refine ⟨?_, ih (r.id :: vistos)⟩
      intro hmem
      have := (agregaNuevos_mem rs (r.id :: vistos) r.id).mp hmem
      exact this.2 (List.mem_cons_self r.id vistos)

/-- Claim C5: every purchase call (single-item or cart) by an administrator
fails with the forbidden error before any quantity validation or stock check,
leaving the store and the cart untouched; this holds for every quantity
(even invalid ones) and every store state (even with the product missing). -/
theorem claim_C5 (user : Usuario) (pid : Nat) (cantidad : Int) (falloAplica : Bool)
    (st : Tienda) (carrito : Carrito) (hadmin : user.es_admin = true) :
    comprar_producto user pid cantidad falloAplica st = (some .prohibido, st)
    ∧ comprar_carrito user carrito falloAplica st = (some .prohibido, st, carrito) := by
  constructor
  · unfold comprar_producto
    rw [hadmin]
    simp
  · unfold comprar_carrito
    rw [hadmin]
    simp

/-- Witness for C5: an administrator with an invalid quantity against an empty
store is still rejected with the forbidden error, showing the gate precedes
quantity validation and any stock read. -/
theorem claim_C5_witness :
    comprar_producto adminEj 1 0 false { productos := [], compras := [] }
      = (some .prohibido, { productos := [], compras := [] })
    ∧ comprar_carrito adminEj carritoDosEj false { productos := [], compras := [] }
      = (some .prohibido, { productos := [], compras := [] }, carritoDosEj) :=
  claim_C5 adminEj 1 0 false { productos := [], compras := [] } carritoDosEj (by decide)

/-- Claim C8: a single-item purchase with a non-positive requested quantity by
a non-administrator fails with the invalid-quantity error and changes nothing;
this holds for every store state, in particular when the product id is absent,
showing the check precedes the product fetch. -/
theorem claim_C8 (user : Usuario) (pid : Nat) (cantidad : Int) (falloAplica : Bool)
    (st : Tienda) (hadmin : user.es_admin = false) (hq : cantidad < 1) :
    comprar_producto user pid cantidad falloAplica st = (some .cantidadInvalida, st) := by
  unfold comprar_producto
  rw [hadmin]
  simp [hq]

/-- Witness for C8: quantity 0 against a store that does not even contain the
product id is rejected as an invalid quantity, not as not-found. -/
theorem claim_C8_witness :
    comprar_producto clienteEj 9 0 false { productos := [], compras := [] }
      = (some .cantidadInvalida, { productos := [], compras := [] }) :=
  claim_C8 clienteEj 9 0 false { productos := [], compras := [] } (by decide) (by decide)

/-- Claim C4: a single-item purchase of quantity at least 1 against an
existing product with insufficient stock fails with the insufficient-stock
error carrying the available amount, with no mutation; a purchase of an
absent product id fails with the not-found error, also with no mutation. -/
theorem claim_C4 (user : Usuario) (pid : Nat) (cantidad : Int) (falloAplica : Bool)
    (st : Tienda) (p : FilaProducto)
    (hadmin : user.es_admin = false) (hq : 1 ≤ cantidad) :
    (buscaProducto st pid = some p → p.cantidad < cantidad →
      comprar_producto user pid cantidad falloAplica st
        = (some (.sinStock p.cantidad p.nombre), st))
    ∧ (buscaProducto st pid = none →
      comprar_producto user pid cantidad falloAplica st = (some .noEncontrado, st)) := by
  have hq2 : ¬ cantidad < 1 := by omega
  constructor
  · intro hp hs
    unfold comprar_producto
    rw [hadmin, hp]
    simp [hq2, hs]
  · intro hp
    unfold comprar_producto
    rw [hadmin, hp]
    simp [hq2]

/-- Witness for C4: buying 6 of a product with stock 5 reports insufficient
stock with available 5 and leaves the store unchanged, and buying an absent
id reports not-found. -/
theorem claim_C4_witness :
    comprar_producto clienteEj 1 6 false tiendaEj
      = (some (.sinStock 5 "pan"), tiendaEj)
    ∧ comprar_producto clienteEj 2 6 false tiendaEj = (some .noEncontrado, tiendaEj) :=
  ⟨(claim_C4 clienteEj 1 6 false tiendaEj ⟨1, "pan", 5, 2⟩ (by decide) (by decide)).1
      (by decide) (by decide),
    (claim_C4 clienteEj 2 6 false tiendaEj ⟨1, "pan", 5, 2⟩ (by decide) (by decide)).2
      (by decide)⟩

/-- Claim C3: a single-item purchase by a non-administrator of quantity
`cantidad ≥ 1` against an existing product with sufficient stock succeeds:
the stock of that product becomes exactly its old value minus `cantidad`,
every other product is untouched, exactly one purchase record with the user
id, product id and quantity is appended, and the record append and stock
decrement form one atomic unit: if the apply step fails, the store is exactly
the original one. -/
theorem claim_C3 (user : Usuario) (pid : Nat) (cantidad : Int) (falloAplica : Bool)
    (st : Tienda) (p : FilaProducto)
    (hadmin : user.es_admin = false) (hq : 1 ≤ cantidad)
    (hp : buscaProducto st pid = some p) (hs : cantidad ≤ p.cantidad) :
    (falloAplica = false →
      ∃ st2, comprar_producto user pid cantidad falloAplica st = (none, st2)
        ∧ st2.compras = st.compras ++ [⟨user.id, pid, cantidad⟩]
        ∧ buscaProducto st2 pid = some { p with cantidad := p.cantidad - cantidad }
        ∧ ∀ otro : Nat, otro ≠ pid → buscaProducto st2 otro = buscaProducto st otro)
    ∧ (falloAplica = true →
      comprar_producto user pid cantidad falloAplica st = (some .falloAplicacion, st)) := by
  have hq2 : ¬ cantidad < 1 := by omega
  have hs2 : ¬ p.cantidad < cantidad := by omega
  constructor
  · intro hfa
    subst hfa
    refine ⟨{ productos := descuentaStock pid cantidad st.productos,
              compras := st.compras ++ [⟨user.id, pid, cantidad⟩] }, ?_, rfl, ?_, ?_⟩
    · unfold comprar_producto
      rw [hadmin, hp]
      simp [hq2, hs2]
    · show (descuentaStock pid cantidad st.productos).find? (fun q => q.id == pid) = _
      rw [find_descuenta_self]
      unfold buscaProducto at hp
      rw [hp]
      rfl
    · intro otro hotro
      show (descuentaStock pid cantidad st.productos).find? (fun q => q.id == otro) = _
      rw [find_descuenta_otro pid otro cantidad st.productos hotro]
      rfl
  · intro hfa
    subst hfa
    unfold comprar_producto
    rw [hadmin, hp]
    simp [hq2, hs2]

/-- Witness for C3: buying 3 of a product with stock 5 yields stock 2, one new
purchase record, and the failing-apply branch returns the original store. -/
theorem claim_C3_witness :
    (∃ st2, comprar_producto clienteEj 1 3 false tiendaEj = (none, st2)
      ∧ st2.compras = tiendaEj.compras ++ [⟨clienteEj.id, 1, 3⟩]
      ∧ buscaProducto st2 1 = some ⟨1, "pan", 2, 2⟩
      ∧ ∀ otro : Nat, otro ≠ 1 → buscaProducto st2 otro = buscaProducto tiendaEj otro) := by
  have h := (claim_C3 clienteEj 1 3 false tiendaEj ⟨1, "pan", 5, 2⟩
      (by decide) (by decide) (by decide) (by decide)).1 rfl
  exact h

/-- Claim C7: constructing a `Producto` succeeds exactly when the id is
positive, the trimmed name is non-empty, and quantity and price are
non-negative (otherwise the first violated check raises a validation error);
on success the stored name is the trimmed input and the other fields are the
inputs; and each mutating setter re-applies the same validation, failing the
same way on violation while leaving the product unchanged. -/
theorem claim_C7 (i : Int) (n : String) (c : Int) (pr : ℚ) (cat : String)
    (p : Producto) (v : Int) (s : String) (q : ℚ) :
    ((∃ p2, mkProducto i n c pr cat = .ok p2) ↔
        (0 < i ∧ recorta n ≠ "" ∧ 0 ≤ c ∧ 0 ≤ pr))
    ∧ (∀ p2, mkProducto i n c pr cat = .ok p2 →
        p2.nombre = recorta n ∧ p2.id = i ∧ p2.cantidad = c ∧ p2.precio = pr
          ∧ p2.categoria = cat)
    ∧ (ponerId p v = (none, { p with id := v }) ↔ 0 < v)
    ∧ (ponerId p v = (some .idInvalido, p) ↔ v ≤ 0)
    ∧ (ponerNombre p s = (none, { p with nombre := recorta s }) ↔ recorta s ≠ "")
    ∧ (ponerNombre p s = (some .nombreVacio, p) ↔ recorta s = "")
    ∧ (ponerCantidad p v = (none, { p with cantidad := v }) ↔ 0 ≤ v)
    ∧ (ponerCantidad p v = (some .cantidadNegativa, p) ↔ v < 0)
    ∧ (ponerPrecio p q = (none, { p with precio := q }) ↔ 0 ≤ q)
    ∧ (ponerPrecio p q = (some .precioNegativo, p) ↔ q < 0) := by
  refine ⟨?_, ?_, ?_, ?_, ?_, ?_, ?_, ?_, ?_, ?_⟩
  · unfold mkProducto
    split_ifs with h1 h2 h3 h4
    · constructor
      · intro ⟨p2, hp2⟩; exact absurd hp2 (by simp)
      · intro ⟨ha, _⟩; omega
    · constructor
      · intro ⟨p2, hp2⟩; exact absurd hp2 (by simp)
      · intro ⟨_, hb, _⟩; exact absurd h2 hb
    · constructor
      · intro ⟨p2, hp2⟩; exact absurd hp2 (by simp)
      · intro ⟨_, _, hcc, _⟩; omega
    · constructor
      · intro ⟨p2, hp2⟩; exact absurd hp2 (by simp)
      · intro ⟨_, _, _, hd⟩; exact absurd h4 (not_lt.mpr hd)
    · constructor
      · intro _
        exact ⟨by omega, h2, by omega, not_lt.mp h4⟩
      · intro _; exact ⟨_, rfl⟩
  · unfold mkProducto
    split_ifs with h1 h2 h3 h4
    all_goals intro p2 hp2
    · exact absurd hp2 (by simp)
    · exact absurd hp2 (by simp)
    · exact absurd hp2 (by simp)
    · exact absurd hp2 (by simp)
    · have hinj := Except.ok.inj hp2
      subst hinj
      exact ⟨rfl, rfl, rfl, rfl, rfl⟩
  · unfold ponerId
    split_ifs with h
    · simp only [Prod.mk.injEq]
      constructor
      · intro ⟨hnone, _⟩; exact absurd hnone (by simp)
      · intro hv; omega
    · simp only [Prod.mk.injEq]
      constructor
      · intro _; omega
      · intro _; trivial
  · unfold ponerId
    split_ifs with h
    · simp only [Prod.mk.injEq]
      constructor
      · intro _; exact h
      · intro _; trivial
    · simp only [Prod.mk.injEq]
      constructor
      · intro ⟨hsome, _⟩; exact absurd hsome (by simp)
      · intro hv; exact absurd hv h
  · unfold ponerNombre
    split_ifs with h
    · simp only [Prod.mk.injEq]
      constructor
      · intro ⟨hnone, _⟩; exact absurd hnone (by simp)
      · intro hv; exact absurd h hv
    · simp only [Prod.mk.injEq]
      constructor
      · intro _; exact h
      · intro _; trivial
  · unfold ponerNombre
    split_ifs with h
    · simp only [Prod.mk.injEq]
      constructor
      · intro _; exact h
      · intro _; trivial
    · simp only [Prod.mk.injEq]
      constructor
      · intro ⟨hsome, _⟩; exact absurd hsome (by simp)
      · intro hv; exact absurd hv h
  · unfold ponerCantidad
    split_ifs with h
    · simp only [Prod.mk.injEq]
      constructor
      · intro ⟨hnone, _⟩; exact absurd hnone (by simp)
      · intro hv; omega
    · simp only [Prod.mk.injEq]
      constructor
      · intro _; omega
      · intro _; trivial
  · unfold ponerCantidad
    split_ifs with h
    · simp only [Prod.mk.injEq]
      constructor
      · intro _; exact h
      · intro _; trivial
    · simp only [Prod.mk.injEq]
      constructor
      · intro ⟨hsome, _⟩; exact absurd hsome (by simp)
      · intro hv; exact absurd hv h
  · unfold ponerPrecio
    split_ifs with h
    · simp only [Prod.mk.injEq]
      constructor
      · intro ⟨hnone, _⟩; exact absurd hnone (by simp)
      · intro hv; exact absurd h (not_lt.mpr hv)
    · simp only [Prod.mk.injEq]
      constructor
      · intro _; exact not_lt.mp h
      · intro _; trivial
  · unfold ponerPrecio
    split_ifs with h
    · simp only [Prod.mk.injEq]
      constructor
      · intro _; exact h
      · intro _; trivial
    · simp only [Prod.mk.injEq]
      constructor
      · intro ⟨hsome, _⟩; exact absurd hsome (by simp)
      · intro hv; exact absurd hv h

/-- Witness for C7: a valid construction with a padded name succeeds (storing
the trimmed name), and each setter rejects its violating value, returning the
product unchanged. -/
theorem claim_C7_witness :
    (∃ p2, mkProducto 1 " pan " 2 3 "General" = .ok p2)
    ∧ ponerId panInvEj (-1) = (some .idInvalido, panInvEj)
    ∧ ponerNombre panInvEj "  " = (some .nombreVacio, panInvEj)
    ∧ ponerCantidad panInvEj (-1) = (some .cantidadNegativa, panInvEj)
    ∧ ponerPrecio panInvEj (-2) = (some .precioNegativo, panInvEj) := by
  have h := claim_C7 1 " pan " 2 3 "General" panInvEj (-1) "  " (-2)
  exact ⟨h.1.mpr ⟨by decide, by decide, by decide, by decide⟩,
    h.2.2.2.1.mpr (by decide),
    h.2.2.2.2.2.1.mpr (by decide),
    h.2.2.2.2.2.2.2.1.mpr (by decide),
    (h.2.2.2.2.2.2.2.2.2).mpr (by decide)⟩

/-- Claim C9: in every store state, `stock_total` equals the sum of the
quantities over the sequence produced by `listar_todos`, and that sequence is
sorted by ascending id. Both facts hold for every state, in particular for
every state reachable by catalog operations. -/
theorem claim_C9 (inv : Inventario) :
    stock_total inv = ((listar_todos inv).map Producto.cantidad).sum
    ∧ (listar_todos inv).Sorted porId := by
  constructor
  · unfold stock_total listar_todos
    exact (((List.perm_insertionSort porId inv.productos).map Producto.cantidad).sum_eq).symm
  · exact List.sorted_insertionSort porId inv.productos

/-- Counterexample to C2: adding a fresh product while the persistence write
fails leaves the product in the in-memory index but not in the durable table,
so the two layers do not agree (neither both updated nor neither). -/
theorem claim_C2_counterexample :
    (agregar_producto true invVacioEj panInvEj).1 = some InvError.falloPersistencia
    ∧ panInvEj.id ∈ (agregar_producto true invVacioEj panInvEj).2.productos.map Producto.id
    ∧ panInvEj.id ∉ (agregar_producto true invVacioEj panInvEj).2.bd.map Producto.id := by
  decide

/-- Amended C2: the source mutates the in-memory dict first and does not roll
it back when the durable write raises, so a failing persistence write during
add leaves the new id in the in-memory index while the durable table is
untouched, and during remove deletes the id from the in-memory index while
the durable table is untouched. -/
theorem claim_C2_amended (inv : Inventario) (p : Producto) (pid : Int)
    (hnuevo : p.id ∉ inv.productos.map Producto.id)
    (hexiste : pid ∈ inv.productos.map Producto.id) :
    ((agregar_producto true inv p).1 = some InvError.falloPersistencia
      ∧ p.id ∈ (agregar_producto true inv p).2.productos.map Producto.id
      ∧ (agregar_producto true inv p).2.bd = inv.bd)
    ∧ ((eliminar_producto true inv pid).1 = some InvError.falloPersistencia
      ∧ pid ∉ (eliminar_producto true inv pid).2.productos.map Producto.id
      ∧ (eliminar_producto true inv pid).2.bd = inv.bd) := by
  have hc1 : (inv.productos.map Producto.id).contains p.id = false := by
    rw [Bool.eq_false_iff]
    intro h
    exact hnuevo ((contiene_mem _ _).mp h)
  have hc2 : (inv.productos.map Producto.id).contains pid = true :=
    (contiene_mem _ _).mpr hexiste
  have hagr : agregar_producto true inv p
      = (some InvError.falloPersistencia,
          { productos := inv.productos ++ [p], bd := inv.bd }) := by
    unfold agregar_producto
    rw [hc1]
    simp
  have helim : eliminar_producto true inv pid
      = (some InvError.falloPersistencia,
          { productos := inv.productos.filter (fun q => q.id != pid), bd := inv.bd }) := by
    unfold eliminar_producto
    rw [hc2]
    simp
  refine ⟨?_, ?_⟩
  · rw [hagr]
    refine ⟨rfl, ?_, rfl⟩
    simp
  · rw [helim]
    refine ⟨rfl, ?_, rfl⟩
    intro hmem
    rw [List.mem_map] at hmem
    obtain ⟨x, hx, hid⟩ := hmem
    rw [List.mem_filter] at hx
    have hx2 := hx.2
    rw [hid] at hx2
    simp at hx2

/-- Witness for C2 amended: against a consistent one-product inventory, a
failing add of a second product updates only the dict, and a failing remove
of the first product deletes only from the dict; the durable table is
untouched in both cases. -/
theorem claim_C2_witness :
    ((agregar_producto true invUnoEj quesoInvEj).1 = some InvError.falloPersistencia
      ∧ quesoInvEj.id ∈ (agregar_producto true invUnoEj quesoInvEj).2.productos.map Producto.id
      ∧ (agregar_producto true invUnoEj quesoInvEj).2.bd = invUnoEj.bd)
    ∧ ((eliminar_producto true invUnoEj 1).1 = some InvError.falloPersistencia
      ∧ (1 : Int) ∉ (eliminar_producto true invUnoEj 1).2.productos.map Producto.id
      ∧ (eliminar_producto true invUnoEj 1).2.bd = invUnoEj.bd) :=
  claim_C2_amended invUnoEj quesoInvEj 1 (by decide) (by decide)

/-- Claim C10: when a product already in the cart is added again, the add
succeeds whenever the newly requested increment alone is within live stock —
regardless of the quantity already held in the cart — and sums the increment
onto the existing line; hence the accumulated line can exceed live stock, and
that oversell is only detected by the checkout validation phase, which then
fails with the insufficient-stock error. -/
theorem claim_C10 (user : Usuario) (pid : Nat) (q : Int) (st : Tienda)
    (p : FilaProducto) (item : ItemCarrito)
    (hadmin : user.es_admin = false)
    (hp : buscaProducto st pid = some p)
    (hq : 1 ≤ q) (hqs : q ≤ p.cantidad) :
    agregar_al_carrito q pid st [(pid, item)]
      = (none, [(pid, { item with cantidad := item.cantidad + q })])
    ∧ (p.cantidad < item.cantidad + q →
        comprar_carrito user [(pid, { item with cantidad := item.cantidad + q })] false st
          = (some (.sinStock p.cantidad item.nombre), st,
              [(pid, { item with cantidad := item.cantidad + q })])) := by
  have hq2 : ¬ q < 1 := by omega
  have hqs2 : ¬ p.cantidad < q := by omega
  constructor
  · unfold agregar_al_carrito
    rw [hp]
    simp [hq2, hqs2, sumaLinea]
  · intro hover
    unfold comprar_carrito
    rw [hadmin]
    simp only [Bool.false_eq_true, if_false, List.isEmpty_cons, if_false]
    have hval : validaCarrito st [(pid, { item with cantidad := item.cantidad + q })]
        = some (.sinStock p.cantidad item.nombre) := by
      unfold validaCarrito
      rw [hp]
      simp [hover]
    rw [hval]

/-- Witness for C10: with `pan` at live stock 5 and a cart already holding 3,
adding 3 more succeeds (3 ≤ 5 is all that is checked), the line becomes 6,
and checkout then aborts with insufficient stock, available 5. -/
theorem claim_C10_witness :
    agregar_al_carrito 3 1 tiendaEj [(1, itemPanEj)]
      = (none, [(1, { itemPanEj with cantidad := 6 })])
    ∧ comprar_carrito clienteEj [(1, { itemPanEj with cantidad := 6 })] false tiendaEj
        = (some (.sinStock 5 "pan"), tiendaEj, [(1, { itemPanEj with cantidad := 6 })]) := by
  have h := claim_C10 clienteEj 1 3 tiendaEj ⟨1, "pan", 5, 2⟩ itemPanEj
      (by decide) (by decide) (by decide) (by decide)
  exact ⟨h.1, h.2 (by decide)⟩

/-- Claim C6: for every search term and store state (with the in-memory dict
keyed uniquely by id), `buscar_por_nombre` returns a sequence with no product
id repeated, whose ids are exactly the union of the in-memory matches and the
durable-table query matches, and which lists all in-memory matches first
followed only by database-only matches. -/
theorem claim_C6 (termino : String) (inv : Inventario)
    (h : (inv.productos.map Producto.id).Nodup) :
    ((buscar_por_nombre termino inv).map Producto.id).Nodup
    ∧ (∀ pid : Int, pid ∈ (buscar_por_nombre termino inv).map Producto.id ↔
        (pid ∈ (coincidenciasMem termino inv).map Producto.id
          ∨ pid ∈ (coincidenciasBd termino inv).map Producto.id))
    ∧ ∃ resto, buscar_por_nombre termino inv = coincidenciasMem termino inv ++ resto
        ∧ ∀ r ∈ resto, r.id ∈ (coincidenciasBd termino inv).map Producto.id
            ∧ r.id ∉ (coincidenciasMem termino inv).map Producto.id := by
  have hmemN : ((coincidenciasMem termino inv).map Producto.id).Nodup := by
    unfold coincidenciasMem
    exact h.sublist ((List.filter_sublist inv.productos).map Producto.id)
  have hdef : buscar_por_nombre termino inv
      = coincidenciasMem termino inv
        ++ agregaNuevos ((coincidenciasMem termino inv).map Producto.id)
            (coincidenciasBd termino inv) := rfl
  refine ⟨?_, ?_, ?_⟩
  · rw [hdef, List.map_append, List.nodup_append]
    refine ⟨hmemN, agregaNuevos_nodup _ _, ?_⟩
    intro a hamem hanew
    have := (agregaNuevos_mem _ _ a).mp hanew
    exact this.2 hamem
  · intro pid
    rw [hdef, List.map_append, List.mem_append, agregaNuevos_mem]
    constructor
    · rintro (hm | ⟨hb, _⟩)
      · exact Or.inl hm
      · exact Or.inr hb
    · rintro (hm | hb)
      · exact Or.inl hm
      · by_cases hmm : pid ∈ (coincidenciasMem termino inv).map Producto.id
        · exact Or.inl hmm
        · exact Or.inr ⟨hb, hmm⟩
  · refine ⟨agregaNuevos ((coincidenciasMem termino inv).map Producto.id)
        (coincidenciasBd termino inv), hdef, ?_⟩
    intro r hr
    have : r.id ∈ (agregaNuevos ((coincidenciasMem termino inv).map Producto.id)
        (coincidenciasBd termino inv)).map Producto.id :=
      List.mem_map.mpr ⟨r, hr, rfl⟩
    exact (agregaNuevos_mem _ _ r.id).mp this

/-- Witness for C6: searching `PAN` (uppercase) in a store where product 1 is
visible in both layers and product 2 only in the durable table yields no
duplicate ids, and id 2 is in the result exactly because it matches in one of
the two sources. -/
theorem claim_C6_witness :
    ((buscar_por_nombre "PAN" invBuscaEj).map Producto.id).Nodup
    ∧ ((2 : Int) ∈ (buscar_por_nombre "PAN" invBuscaEj).map Producto.id ↔
        ((2 : Int) ∈ (coincidenciasMem "PAN" invBuscaEj).map Producto.id
          ∨ (2 : Int) ∈ (coincidenciasBd "PAN" invBuscaEj).map Producto.id)) := by
  have h := claim_C6 "PAN" invBuscaEj (by decide)
  exact ⟨h.1, h.2.1 2⟩

/-- Claim C1: cart checkout is all-or-nothing via two phases. For every
non-empty cart (with its dict keys unique) and every store state, if some
line fails validation (missing product or insufficient live stock), the whole
checkout aborts reporting the first failing line, with the store — stock and
purchase records — and the cart unchanged; the apply phase runs only when
every line passes, and then either the whole apply fails and the store and
cart are unchanged, or on full success one purchase record per line is
appended in order, each line's product stock is decremented by its requested
quantity, all other products are untouched, and the cart is cleared. -/
theorem claim_C1 (user : Usuario) (carrito : Carrito) (falloAplica : Bool) (st : Tienda)
    (hadmin : user.es_admin = false) (hne : carrito ≠ [])
    (hclaves : (carrito.map Prod.fst).Nodup) :
    (∀ linea, carrito.find? (itemFallaSpec st) = some linea →
        comprar_carrito user carrito falloAplica st = (errorDeLinea st linea, st, carrito))
    ∧ (carrito.find? (itemFallaSpec st) = none →
        (falloAplica = true →
          comprar_carrito user carrito falloAplica st = (some .falloAplicacion, st, carrito))
        ∧ (falloAplica = false →
          ∃ st2, comprar_carrito user carrito falloAplica st = (none, st2, [])
            ∧ st2.compras = st.compras ++ carrito.map (fun l => ⟨user.id, l.1, l.2.cantidad⟩)
            ∧ (∀ pid item, (pid, item) ∈ carrito →
                buscaProducto st2 pid = (buscaProducto st pid).map
                  (fun f => { f with cantidad := f.cantidad - item.cantidad }))
            ∧ (∀ pid, pid ∉ carrito.map Prod.fst →
                buscaProducto st2 pid = buscaProducto st pid))) := by
  have hempty : carrito.isEmpty = false := by
    cases carrito with
    | nil => exact absurd rfl hne
    | cons a l => rfl
  have hrun : comprar_carrito user carrito falloAplica st
      = match validaCarrito st carrito with
        | some e => (some e, st, carrito)
        | none =>
          if falloAplica then (some .falloAplicacion, st, carrito)
          else (none, aplicaCarrito user.id carrito st, []) := by
    unfold comprar_carrito
    rw [hadmin, hempty]
    rfl
  constructor
  · intro linea hfind
    have hfalla : itemFallaSpec st linea = true := List.find?_some hfind
    obtain ⟨e, he⟩ := errorDeLinea_de_falla st linea hfalla
    have hval : validaCarrito st carrito = some e := by
      rw [valida_eq_primera, hfind]
      exact he
    rw [hrun, hval, he]
  · intro hfind
    have hval : validaCarrito st carrito = none := by
      rw [valida_eq_primera, hfind]
      rfl
    constructor
    · intro hfa
      subst hfa
      rw [hrun, hval]
      rfl
    · intro hfa
      subst hfa
      refine ⟨aplicaCarrito user.id carrito st, ?_, ?_, ?_, ?_⟩
      · rw [hrun, hval]
        rfl
      · exact aplica_compras user.id carrito st
      · intro pid item hmem
        exact aplica_busca_linea user.id carrito st pid item hmem hclaves
      · intro pid hpid
        exact aplica_busca_ausente user.id carrito st pid hpid

/-- Witness for C1: a two-line cart whose second line requests 3 of `queso`
with live stock 1 aborts the whole checkout with insufficient stock for that
line, and the store and the cart are returned unchanged. -/
theorem claim_C1_witness :
    comprar_carrito clienteEj carritoDosEj false tiendaDosEj
      = (some (CompraError.sinStock 1 "queso"), tiendaDosEj, carritoDosEj) := by
  have h := (claim_C1 clienteEj carritoDosEj false tiendaDosEj (by decide) (by decide)
      (by decide)).1 (2, ⟨2, "queso", 4, 3⟩) (by decide)
  rw [h]
  decide
